import Mathlib

/-!
Shallow embedding of the command handlers in `cogs/modmail.py` of the
modmail bot.  Each handler is modelled as a pure function from the pieces
of shared configuration state it reads and writes (Python dicts become
association lists with Python `dict` semantics, Python lists become Lean
lists) to the new state together with the kind of embed it sends and
whether it called `config.update()`.  Embeds sent through the external
`discord.Embed` API are abstracted to their kind (error colour, success
colour, or the not-found embed built by `create_not_found_embed`).
-/

/-- Kind of embed a handler sends: an error-coloured embed, a
success/main-coloured embed, or the not-found embed produced by
`create_not_found_embed`. -/
inductive EmbedKind where
  | error
  | success
  | notFound
  deriving DecidableEq, Repr

/-- A Python `dict` with string keys, as an insertion-ordered association
list (Python dicts preserve insertion order). -/
abbrev Dict (α : Type) := List (String × α)

/-- Python `k in d` for a dict. -/
def dictContains {α : Type} : Dict α → String → Bool
  | [], _ => false
  | p :: d, k => p.1 == k || dictContains d k

/-- Python `d.get(k)` for a dict. -/
def dictGet {α : Type} : Dict α → String → Option α
  | [], _ => none
  | p :: d, k => if p.1 == k then some p.2 else dictGet d k

/-- Replace the value stored under an existing key, keeping the entry in
place. -/
def replaceKey {α : Type} : Dict α → String → α → Dict α
  | [], _, _ => []
  | p :: d, k, v => (if p.1 == k then (k, v) else p) :: replaceKey d k v

/-- Python `d[k] = v` for a dict: replace in place when the key exists,
append at the end otherwise. -/
def dictSet {α : Type} (d : Dict α) (k : String) (v : α) : Dict α :=
  if dictContains d k then replaceKey d k v else d ++ [(k, v)]

/-- Python `d.pop(k)` for a dict (just the removal; handlers only call it
with the key present). -/
def dictPop {α : Type} : Dict α → String → Dict α
  | [], _ => []
  | p :: d, k => if p.1 == k then dictPop d k else p :: dictPop d k

/-- Python `s.startswith(p)`. -/
def startswith (s p : String) : Bool :=
  p.data.isPrefixOf s.data

/-- The pieces of bot state touched by the snippet commands:
`bot.snippets` and `bot.aliases` (name → stored text). -/
structure SnippetState where
  snippets : Dict String
  aliases : Dict String
  deriving DecidableEq, Repr

/-- Handler `snippet_add` (cogs/modmail.py): rejects a name already a snippet,
already an alias, or longer than 120 characters, otherwise stores the
value and persists the config.  Result: new state, embed kind, whether
`config.update()` ran. -/
def snippet_add (st : SnippetState) (name value : String) :
    SnippetState × EmbedKind × Bool :=
  if dictContains st.snippets name then
    (st, EmbedKind.error, false)
  else if dictContains st.aliases name then
    (st, EmbedKind.error, false)
  else if name.length > 120 then
    (st, EmbedKind.error, false)
  else
    ({ st with snippets := dictSet st.snippets name value },
      EmbedKind.success, true)

/-- Handler `snippet_remove` (cogs/modmail.py): pops the name and persists when it
is a snippet, otherwise sends the not-found embed. -/
def snippet_remove (st : SnippetState) (name : String) :
    SnippetState × EmbedKind × Bool :=
  if dictContains st.snippets name then
    ({ st with snippets := dictPop st.snippets name },
      EmbedKind.success, true)
  else
    (st, EmbedKind.notFound, false)

/-- Outcome of `snippet_edit`'s response path: the present-name branch
raises `NameError` (its confirmation embed calls `f_`, a name defined
nowhere in the module and imported from nowhere) before anything is
sent; the absent-name branch sends the not-found embed. -/
inductive EditOutcome where
  | raisedNameError
  | notFound
  deriving DecidableEq, Repr

/-- Handler `snippet_edit` (cogs/modmail.py): when the name is a snippet
it overwrites the stored value and persists, but then raises `NameError`
at line 284 building the confirmation embed — its description calls the
undefined `f_` — so no embed reaches `ctx.send`; with the name absent it
sends the not-found embed. -/
def snippet_edit (st : SnippetState) (name value : String) :
    SnippetState × EditOutcome × Bool :=
  if dictContains st.snippets name then
    ({ st with snippets := dictSet st.snippets name value },
      EditOutcome.raisedNameError, true)
  else
    (st, EditOutcome.notFound, false)

/-! ### Dictionary lemmas -/

theorem dictGet_replaceKey_self {α : Type} (d : Dict α) (k : String)
    (v : α) (h : dictContains d k = true) :
    dictGet (replaceKey d k v) k = some v := by
  induction d with
  | nil => simp [dictContains] at h
  | cons p d ih =>
    by_cases hp : p.1 = k
    · simp [replaceKey, dictGet, hp]
    · have h' : dictContains d k = true := by
        simpa [dictContains, hp] using h
      simp [replaceKey, dictGet, hp, ih h']

theorem dictGet_append_single_self {α : Type} (d : Dict α) (k : String)
    (v : α) (h : dictContains d k = false) :
    dictGet (d ++ [(k, v)]) k = some v := by
  induction d with
  | nil => simp [dictGet]
  | cons p d ih =>
    have hp : ¬p.1 = k := by
      intro he
      simp [dictContains, he] at h
    have h' : dictContains d k = false := by
      simpa [dictContains, hp] using h
    simp [dictGet, hp, ih h']

theorem dictGet_dictSet_self {α : Type} (d : Dict α) (k : String) (v : α) :
    dictGet (dictSet d k v) k = some v := by
  unfold dictSet
  by_cases h : dictContains d k = true
  · simp only [h, if_true]
    exact dictGet_replaceKey_self d k v h
  · have h' : dictContains d k = false := by simpa using h
    simp only [h', Bool.false_eq_true, if_false]
    exact dictGet_append_single_self d k v h'

theorem dictGet_replaceKey_ne {α : Type} (d : Dict α) (k j : String)
    (v : α) (h : j ≠ k) : dictGet (replaceKey d k v) j = dictGet d j := by
  induction d with
  | nil => rfl
  | cons p d ih =>
    by_cases hpk : p.1 = k
    · have h1 : ¬k = j := fun he => h he.symm
      have h2 : ¬p.1 = j := by rw [hpk]; exact h1
      simp [replaceKey, dictGet, hpk, h1, h2, ih]
    · by_cases hpj : p.1 = j
      · simp [replaceKey, dictGet, hpk, hpj, h]
      · simp [replaceKey, dictGet, hpk, hpj, ih]

theorem dictGet_append_single_ne {α : Type} (d : Dict α) (k j : String)
    (v : α) (h : j ≠ k) : dictGet (d ++ [(k, v)]) j = dictGet d j := by
  induction d with
  | nil => simp [dictGet, Ne.symm h]
  | cons p d ih =>
    by_cases hpj : p.1 = j
    · simp [dictGet, hpj]
    · simp [dictGet, hpj, ih]

theorem dictGet_dictSet_ne {α : Type} (d : Dict α) (k j : String) (v : α)
    (h : j ≠ k) : dictGet (dictSet d k v) j = dictGet d j := by
  unfold dictSet
  by_cases hc : dictContains d k = true
  · simp only [hc, if_true]
    exact dictGet_replaceKey_ne d k j v h
  · simp only [hc]
    simpa using dictGet_append_single_ne d k j v h

theorem dictContains_append_single {α : Type} (d : Dict α) (k : String)
    (v : α) : dictContains (d ++ [(k, v)]) k = true := by
  induction d with
  | nil => simp [dictContains]
  | cons p d ih => simp [dictContains, ih]

theorem dictPop_append_single {α : Type} (d : Dict α) (k : String) (v : α)
    (h : dictContains d k = false) : dictPop (d ++ [(k, v)]) k = d := by
  induction d with
  | nil => simp [dictPop]
  | cons p d ih =>
    have hp : ¬p.1 = k := by
      intro he
      simp [dictContains, he] at h
    have h' : dictContains d k = false := by
      simpa [dictContains, hp] using h
    simp [dictPop, hp, ih h']

theorem dictContains_dictPop_self {α : Type} (d : Dict α) (k : String) :
    dictContains (dictPop d k) k = false := by
  induction d with
  | nil => simp [dictPop, dictContains]
  | cons p d ih =>
    by_cases hp : p.1 = k
    · simp [dictPop, hp, ih]
    · simp [dictPop, dictContains, hp, ih]

theorem mem_replaceKey {α : Type} {d : Dict α} {k : String} {v : α}
    {p : String × α} (h : p ∈ replaceKey d k v) : p ∈ d ∨ p = (k, v) := by
  induction d with
  | nil => simp [replaceKey] at h
  | cons q d ih =>
    by_cases hq : q.1 = k
    · rcases (by simpa [replaceKey, hq] using h : p = (k, v) ∨ p ∈ replaceKey d k v) with h1 | h1
      · exact Or.inr h1
      · rcases ih h1 with h2 | h2
        · exact Or.inl (List.mem_cons_of_mem q h2)
        · exact Or.inr h2
    · rcases (by simpa [replaceKey, hq] using h : p = q ∨ p ∈ replaceKey d k v) with h1 | h1
      · exact Or.inl (by simp [h1])
      · rcases ih h1 with h2 | h2
        · exact Or.inl (List.mem_cons_of_mem q h2)
        · exact Or.inr h2

theorem mem_dictSet {α : Type} {d : Dict α} {k : String} {v : α}
    {p : String × α} (h : p ∈ dictSet d k v) : p ∈ d ∨ p = (k, v) := by
  unfold dictSet at h
  by_cases hc : dictContains d k = true
  · simp only [hc, if_true] at h
    exact mem_replaceKey h
  · simp only [hc] at h
    have h' : p ∈ d ++ [(k, v)] := by simpa using h
    simpa using List.mem_append.mp h'

theorem mem_dictPop {α : Type} {d : Dict α} {k : String} {p : String × α}
    (h : p ∈ dictPop d k) : p ∈ d := by
  induction d with
  | nil => simp [dictPop] at h
  | cons q d ih =>
    by_cases hq : q.1 = k
    · exact List.mem_cons_of_mem q (ih (by simpa [dictPop, hq] using h))
    · rcases (by simpa [dictPop, hq] using h : p = q ∨ p ∈ dictPop d k) with h1 | h1
      · simp [h1]
      · exact List.mem_cons_of_mem q (ih h1)

/-! ### Block / whitelist state and commands -/

/-- The pieces of bot state touched by the block commands:
`bot.blocked_users` (user id string → reason string) and
`bot.blocked_whitelisted_users` (list of user id strings). -/
structure BlockState where
  blocked : Dict String
  whitelist : List String
  deriving DecidableEq, Repr

/-- The `after : UserFriendlyTime` argument of `block`, reduced to the
fields the handler reads: `after.arg` (the free-text part, empty when
absent), whether `after.dt > after.now`, and `after.dt.isoformat()`. -/
structure AfterArg where
  arg : String
  isFuture : Bool
  dtIso : String
  deriving DecidableEq, Repr

/-- Handler `block` (cogs/modmail.py): refuses when the user is whitelisted;
otherwise builds the reason string (raising `BadArgument` when a duration
was given and the reason contains `%`), stores it under the user's id and
persists.  `reasonBase` stands for the
`f"by {escape_markdown(ctx.author.name)}#{ctx.author.discriminator}"`
prefix computed from the command author.  `Except` models the raised
exception. -/
def block (st : BlockState) (uid reasonBase : String)
    (after : Option AfterArg) :
    Except String (BlockState × EmbedKind × Bool) :=
  if st.whitelist.contains uid then
    Except.ok (st, EmbedKind.error, false)
  else
    match after with
    | none =>
        let reason := reasonBase ++ "."
        Except.ok ({ st with blocked := dictSet st.blocked uid reason },
          EmbedKind.success, true)
    | some a =>
        if reasonBase.contains '%' then
          Except.error "BadArgument"
        else
          let r1 := if a.arg ≠ "" then
              reasonBase ++ " for `" ++ a.arg ++ "`" else reasonBase
          let r2 := if a.isFuture then r1 ++ " until " ++ a.dtIso else r1
          Except.ok ({ st with blocked := dictSet st.blocked uid (r2 ++ ".") },
            EmbedKind.success, true)

/-- Outcome of `unblock`'s response path: a success embed, the
`KeyError` raised formatting the internal-block footer before anything
is sent, or the not-blocked error embed. -/
inductive UnblockOutcome where
  | success
  | raisedKeyError
  | notBlockedError
  deriving DecidableEq, Repr

/-- Handler `unblock` (cogs/modmail.py): pops the user's id from the
blocked map and persists when present.  When the stored reason starts
with `System Message: ` it then raises `KeyError` in the footer's
`str.format` at lines 1169-1175 — the template holds the placeholders
`{self.bot.prefix}` and `{user.id}` while the call passes `name`,
`prefix`, `user_id` — before `ctx.send`, so no embed is sent on that
path; a plain reason gets a success embed, and an absent id gets an
error embed. -/
def unblock (st : BlockState) (uid : String) :
    BlockState × UnblockOutcome × Bool :=
  if dictContains st.blocked uid then
    let msg := (dictGet st.blocked uid).getD ""
    let st' := { st with blocked := dictPop st.blocked uid }
    if startswith msg "System Message: " then
      (st', UnblockOutcome.raisedKeyError, true)
    else
      (st', UnblockOutcome.success, true)
  else
    (st, UnblockOutcome.notBlockedError, false)

/-- Handler `blocked_whitelist` (cogs/modmail.py): un-whitelists the user when
already whitelisted (no `config.update()` on this path), otherwise
appends the user to the whitelist, pops them from the blocked map when
present, and persists. -/
def blocked_whitelist (st : BlockState) (uid : String) :
    BlockState × EmbedKind × Bool :=
  if st.whitelist.contains uid then
    ({ st with whitelist := st.whitelist.erase uid },
      EmbedKind.success, false)
  else
    let wl := st.whitelist ++ [uid]
    let bl := if dictContains st.blocked uid then
        dictPop st.blocked uid else st.blocked
    ({ st with blocked := bl, whitelist := wl }, EmbedKind.success, true)

/-- Disjointness of the blocked map and the whitelist: no blocked user id
is whitelisted. -/
def blDisjoint (st : BlockState) : Prop :=
  ∀ p ∈ st.blocked, st.whitelist.contains p.1 = false

instance (st : BlockState) : Decidable (blDisjoint st) := by
  unfold blDisjoint
  infer_instance

/-! ### DM-disabled commands -/

/-- Handler `enable` (cogs/modmail.py): sets `config["dm_disabled"]` to 0 when it
is not already 0 and persists; always sends a success embed. -/
def enable (dmDisabled : Int) : Int × EmbedKind × Bool :=
  if dmDisabled ≠ 0 then (0, EmbedKind.success, true)
  else (dmDisabled, EmbedKind.success, false)

/-- Handler `disable` (cogs/modmail.py): sets `config["dm_disabled"]` to 1 when it
is below 1 and persists; always sends a success embed. -/
def disable (dmDisabled : Int) : Int × EmbedKind × Bool :=
  if dmDisabled < 1 then (1, EmbedKind.success, true)
  else (dmDisabled, EmbedKind.success, false)

/-- Handler `disable_all` (cogs/modmail.py): sets `config["dm_disabled"]` to 2
when it is not already 2 and persists; always sends a success embed. -/
def disable_all (dmDisabled : Int) : Int × EmbedKind × Bool :=
  if dmDisabled ≠ 2 then (2, EmbedKind.success, true)
  else (dmDisabled, EmbedKind.success, false)

/-! ### Contact -/

/-- The target user of `contact`, reduced to the attributes the handler
reads: `user.id`, `user.bot`, `user.mention`. -/
structure ContactUser where
  id : Nat
  isBot : Bool
  mention : String
  deriving DecidableEq, Repr

/-- Modelled from the spec: a thread is "a per-user discussion channel in
the staff server mirroring a direct-message conversation with an end
user"; `core.thread` (the thread-management subsystem behind
`bot.threads`) is not part of this file, so a thread is reduced to its
recipient, its creator, its channel's mention string, and its category. -/
structure MThread where
  recipientId : Nat
  creatorId : Nat
  channelMention : String
  category : Option Nat
  deriving DecidableEq, Repr

/-- Modelled from the spec: `bot.threads.find(recipient=user)` looks up
the existing thread whose recipient is the given user. -/
def threadsFind (ts : List MThread) (uid : Nat) : Option MThread :=
  ts.find? (fun t => t.recipientId == uid)

/-- Modelled from the spec: `bot.threads.create(user, creator, category)`
creates one new thread with the given recipient and creator; the fresh
channel's mention is supplied by the environment. -/
def threadsCreate (ts : List MThread) (recipientId creatorId : Nat)
    (category : Option Nat) (newChannel : String) : List MThread :=
  ts ++ [⟨recipientId, creatorId, newChannel, category⟩]

/-- Outcome of `contact`: every branch raises `UnboundLocalError`
evaluating `_(...)` while building its embed, so nothing is ever sent;
the fresh-recipient branch has already created its thread when it
raises. -/
inductive ContactResult where
  | raisedBot
  | raisedExists
  | raisedAfterCreate
  deriving DecidableEq, Repr

/-- Handler `contact` (cogs/modmail.py): the tuple assignment
`sent_emoji, _ = await self.bot.retrieve_emoji()` at line 954 makes `_`
local to the whole function, so each `_(...)` call (lines 926, 934, 947)
raises `UnboundLocalError` while building its embed.  A bot target and
an existing recipient therefore raise before sending anything and create
nothing; a fresh recipient gets exactly one thread created through
`bot.threads.create` (line 940, before the raise at line 947), after
which the handler crashes without sending. -/
def contact (ts : List MThread) (user : ContactUser) (authorId : Nat)
    (category : Option Nat) (newChannel : String) :
    List MThread × ContactResult :=
  if user.isBot then
    (ts, ContactResult.raisedBot)
  else
    match threadsFind ts user.id with
    | some _ => (ts, ContactResult.raisedExists)
    | none =>
        (threadsCreate ts user.id authorId category newChannel,
          ContactResult.raisedAfterCreate)

/-! ### parse_user_or_role and the notify / subscribe commands -/

/-- The `user_or_role` argument after conversion by the command
framework: `None`, a `discord.Role`/`User` object (which carries a
`mention` attribute), or a lower-cased string. -/
inductive UserOrRole where
  | none
  | mentionable (mention : String)
  | str (s : String)
  deriving DecidableEq, Repr

/-- Python `s.lstrip("@")`: drop every leading `@`. -/
def lstripAt (s : String) : String :=
  String.mk (s.data.dropWhile (fun c => c == '@'))

/-- Helper `parse_user_or_role` (cogs/modmail.py): the author's mention for
`None`, the object's `mention` attribute when it has one, `"@" +
user_or_role.lstrip("@")` for the four strings `here`, `everyone`,
`@here`, `@everyone`, and `None` otherwise. -/
def parse_user_or_role (authorMention : String) (u : UserOrRole) :
    Option String :=
  match u with
  | UserOrRole.none => some authorMention
  | UserOrRole.mentionable m => some m
  | UserOrRole.str s =>
      if s == "here" || s == "everyone" || s == "@here" || s == "@everyone"
      then some ("@" ++ lstripAt s)
      else Option.none

/-- Python `f"{user_or_role}"` as used by `unnotify`/`unsubscribe` when
`parse_user_or_role` returns `None`; only the string case is reachable
there (`None` and mention-carrying objects always parse), so objects are
rendered by their mention. -/
def uorText : UserOrRole → String
  | UserOrRole.none => "None"
  | UserOrRole.mentionable m => m
  | UserOrRole.str s => s

/-- The pieces of bot config touched by the notify/subscribe commands:
`config["notification_squad"]` and `config["subscriptions"]` (thread id
string → list of mention strings), plus the remaining config fields,
abstracted as an opaque string map. -/
structure NotifyConfig where
  notification_squad : Dict (List String)
  subscriptions : Dict (List String)
  otherFields : Dict String
  deriving DecidableEq, Repr

/-- Handler `notify` (cogs/modmail.py): raises `BadArgument` when the argument
parses to no mention; otherwise initialises the current thread's entry in
`notification_squad` when missing, then either reports the mention as
already pending (error embed) or appends it and persists. -/
def notify (cfg : NotifyConfig) (threadId : Nat) (u : UserOrRole)
    (authorMention : String) :
    Except String (NotifyConfig × EmbedKind × Bool) :=
  match parse_user_or_role authorMention u with
  | Option.none => Except.error "BadArgument"
  | some mention =>
      let key := toString threadId
      let squad := if dictContains cfg.notification_squad key then
          cfg.notification_squad
        else dictSet cfg.notification_squad key []
      let mentions := (dictGet squad key).getD []
      if mentions.contains mention then
        Except.ok ({ cfg with notification_squad := squad },
          EmbedKind.error, false)
      else
        let squad2 := dictSet squad key (mentions ++ [mention])
        Except.ok ({ cfg with notification_squad := squad2 },
          EmbedKind.success, true)

/-- Handler `unnotify` (cogs/modmail.py): falls back to the back-ticked raw
argument when parsing fails; initialises the current thread's entry in
`notification_squad` when missing, then either reports no pending
notification (error embed) or removes the first occurrence and
persists. -/
def unnotify (cfg : NotifyConfig) (threadId : Nat) (u : UserOrRole)
    (authorMention : String) : NotifyConfig × EmbedKind × Bool :=
  let mention := match parse_user_or_role authorMention u with
    | some m => m
    | Option.none => "`" ++ uorText u ++ "`"
  let key := toString threadId
  let squad := if dictContains cfg.notification_squad key then
      cfg.notification_squad
    else dictSet cfg.notification_squad key []
  let mentions := (dictGet squad key).getD []
  if mentions.contains mention then
    let squad2 := dictSet squad key (mentions.erase mention)
    ({ cfg with notification_squad := squad2 }, EmbedKind.success, true)
  else
    ({ cfg with notification_squad := squad }, EmbedKind.error, false)

/-- Handler `subscribe` (cogs/modmail.py): like `notify` but on
`config["subscriptions"]`. -/
def subscribe (cfg : NotifyConfig) (threadId : Nat) (u : UserOrRole)
    (authorMention : String) :
    Except String (NotifyConfig × EmbedKind × Bool) :=
  match parse_user_or_role authorMention u with
  | Option.none => Except.error "BadArgument"
  | some mention =>
      let key := toString threadId
      let subs := if dictContains cfg.subscriptions key then
          cfg.subscriptions
        else dictSet cfg.subscriptions key []
      let mentions := (dictGet subs key).getD []
      if mentions.contains mention then
        Except.ok ({ cfg with subscriptions := subs },
          EmbedKind.error, false)
      else
        let subs2 := dictSet subs key (mentions ++ [mention])
        Except.ok ({ cfg with subscriptions := subs2 },
          EmbedKind.success, true)

/-- Handler `unsubscribe` (cogs/modmail.py): like `unnotify` but on
`config["subscriptions"]`. -/
def unsubscribe (cfg : NotifyConfig) (threadId : Nat) (u : UserOrRole)
    (authorMention : String) : NotifyConfig × EmbedKind × Bool :=
  let mention := match parse_user_or_role authorMention u with
    | some m => m
    | Option.none => "`" ++ uorText u ++ "`"
  let key := toString threadId
  let subs := if dictContains cfg.subscriptions key then
      cfg.subscriptions
    else dictSet cfg.subscriptions key []
  let mentions := (dictGet subs key).getD []
  if mentions.contains mention then
    ({ cfg with subscriptions := dictSet subs key (mentions.erase mention) },
      EmbedKind.success, true)
  else
    ({ cfg with subscriptions := subs }, EmbedKind.error, false)

/-! ### The blocked listing -/

/-- One line of the `blocked` listing:
`mention + f" - {reason or 'No Reason Provided'}\n"`. -/
def blockedLine (mention reason : String) : String :=
  mention ++ " - " ++ (if reason = "" then "No Reason Provided" else reason)
    ++ "\n"

/-- One step of the `blocked` listing loop: start a new embed when the
line would push the current description past 2048 characters, append to
the current description otherwise.  State: finished descriptions and the
description under construction. -/
def blockedStep (st : List String × String) (line : String) :
    List String × String :=
  if st.2.length + line.length > 2048 then (st.1 ++ [st.2], line)
  else (st.1, st.2 ++ line)

/-- Handler `blocked` (cogs/modmail.py), reduced to the descriptions of the
embeds it builds.  `users` is the resolved `(mention-or-id, reason)`
list; the first embed starts with an empty description which lines are
appended to. -/
def blockedDescriptions (users : List (String × String)) : List String :=
  if users.isEmpty then ["Currently there are no blocked users."]
  else
    let lines := users.map (fun p => blockedLine p.1 p.2)
    let st := lines.foldl blockedStep ([], "")
    st.1 ++ [st.2]

/-! ### Auxiliary lemmas for the claim theorems -/

theorem ne_key_of_not_contains {α : Type} {d : Dict α} {k : String}
    {p : String × α} (h : dictContains d k = false) (hp : p ∈ d) :
    p.1 ≠ k := by
  intro he
  induction d with
  | nil => simp at hp
  | cons q d ih =>
    rcases List.mem_cons.mp hp with h1 | h1
    · subst h1
      simp [dictContains, he] at h
    · have h' : dictContains d k = false := by
        rcases (by simpa [dictContains] using h :
          ¬q.1 = k ∧ dictContains d k = false) with ⟨_, h2⟩
        exact h2
      exact ih h' h1

theorem mem_dictPop_ne {α : Type} {d : Dict α} {k : String}
    {p : String × α} (h : p ∈ dictPop d k) : p.1 ≠ k := by
  induction d with
  | nil => simp [dictPop] at h
  | cons q d ih =>
    by_cases hq : q.1 = k
    · exact ih (by simpa [dictPop, hq] using h)
    · rcases (by simpa [dictPop, hq] using h : p = q ∨ p ∈ dictPop d k)
        with h1 | h1
      · simpa [h1] using hq
      · exact ih h1

theorem contains_erase_false (l : List String) (a x : String)
    (h : l.contains x = false) : (l.erase a).contains x = false := by
  by_contra hc
  have h1 : x ∈ l.erase a := by
    simpa using (Bool.not_eq_false _).mp hc
  have h2 : x ∈ l := List.mem_of_mem_erase h1
  simp [h2] at h

/-! ### Claim theorems -/

/-- C1: for every invocation of `snippet_add` with name `n` and value
`v`: if `n` is already a snippet, or an alias, or longer than 120
characters, an error embed is sent and the snippets map is unchanged;
otherwise afterwards the snippets map maps `n` to `v`, the persistent
config is updated, and a success embed is sent. -/
theorem snippet_add_spec (st : SnippetState) (n v : String) :
    ((dictContains st.snippets n = true ∨ dictContains st.aliases n = true ∨
        120 < n.length) →
      (snippet_add st n v).2.1 = EmbedKind.error ∧
      (snippet_add st n v).1.snippets = st.snippets) ∧
    (dictContains st.snippets n = false →
      dictContains st.aliases n = false → n.length ≤ 120 →
      dictGet (snippet_add st n v).1.snippets n = some v ∧
      (snippet_add st n v).2.2 = true ∧
      (snippet_add st n v).2.1 = EmbedKind.success) := by
  constructor
  · intro h
    unfold snippet_add
    by_cases h1 : dictContains st.snippets n = true
    · simp [h1]
    · by_cases h2 : dictContains st.aliases n = true
      · simp [h1, h2]
      · by_cases h3 : 120 < n.length
        · simp [h1, h2, h3]
        · rcases h with h | h | h <;> simp_all
  · intro h1 h2 h3
    unfold snippet_add
    simp only [h1, h2, Bool.false_eq_true, if_false, gt_iff_lt,
      Nat.not_lt.mpr h3]
    exact ⟨dictGet_dictSet_self st.snippets n v, by trivial, by trivial⟩

/-- C1 witness at concrete inputs: duplicate name rejected, fresh name
stored. -/
theorem snippet_add_spec_witness :
    (snippet_add ⟨[("a", "x")], []⟩ "a" "y").2.1 = EmbedKind.error ∧
    (snippet_add ⟨[("a", "x")], []⟩ "a" "y").1.snippets = [("a", "x")] ∧
    dictGet (snippet_add ⟨[("a", "x")], []⟩ "b" "y").1.snippets "b" =
      some "y" :=
  ⟨((snippet_add_spec ⟨[("a", "x")], []⟩ "a" "y").1 (Or.inl (by decide))).1,
   ((snippet_add_spec ⟨[("a", "x")], []⟩ "a" "y").1 (Or.inl (by decide))).2,
   ((snippet_add_spec ⟨[("a", "x")], []⟩ "b" "y").2 (by decide) (by decide)
     (by decide)).1⟩

/-- C6: for a name neither a snippet nor an alias and at most 120
characters long, `snippet_add` then `snippet_remove` restores the
snippets map; `snippet_remove` on an absent name leaves the map
unchanged and sends the not-found embed. -/
theorem snippet_add_remove_roundtrip (st : SnippetState) (n v : String)
    (h1 : dictContains st.snippets n = false)
    (h2 : dictContains st.aliases n = false)
    (h3 : n.length ≤ 120) :
    (snippet_remove (snippet_add st n v).1 n).1.snippets = st.snippets ∧
    snippet_remove st n = (st, EmbedKind.notFound, false) := by
  have hadd : (snippet_add st n v).1.snippets = st.snippets ++ [(n, v)] := by
    unfold snippet_add
    simp [h1, h2, Nat.not_lt.mpr h3, dictSet]
  constructor
  · unfold snippet_remove
    rw [hadd]
    simp only [dictContains_append_single, if_true]
    exact dictPop_append_single st.snippets n v h1
  · unfold snippet_remove
    simp [h1]

/-- C6 witness: add then remove of a fresh name on a concrete state. -/
theorem snippet_add_remove_roundtrip_witness :
    (snippet_remove (snippet_add ⟨[("a", "x")], []⟩ "b" "y").1 "b").1.snippets
      = [("a", "x")] ∧
    snippet_remove ⟨[("a", "x")], []⟩ "b" =
      (⟨[("a", "x")], []⟩, EmbedKind.notFound, false) :=
  snippet_add_remove_roundtrip ⟨[("a", "x")], []⟩ "b" "y" (by decide)
    (by decide) (by decide)

/-- C9: the claim asserts that for every present name `snippet_edit`
updates the stored value, persists, and sends a confirmation embed
without raising; the code does update the value and persist, but then
raises `NameError` on the undefined `f_` (line 284) before any embed is
sent, so the handler never completes normally on this path. -/
theorem snippet_edit_spec (st : SnippetState) (n v : String)
    (h : dictContains st.snippets n = true) :
    dictGet (snippet_edit st n v).1.snippets n = some v ∧
    (snippet_edit st n v).2.2 = true ∧
    (snippet_edit st n v).2.1 = EditOutcome.raisedNameError := by
  unfold snippet_edit
  simp only [h, if_true]
  exact ⟨dictGet_dictSet_self st.snippets n v, by trivial, by trivial⟩

/-- C9 witness at the failing input: editing the existing snippet `a`
stores the new value and persists but ends in the `NameError`. -/
theorem snippet_edit_spec_witness :
    dictGet (snippet_edit ⟨[("a", "x")], []⟩ "a" "z").1.snippets "a" =
      some "z" ∧
    (snippet_edit ⟨[("a", "x")], []⟩ "a" "z").2.2 = true ∧
    (snippet_edit ⟨[("a", "x")], []⟩ "a" "z").2.1 =
      EditOutcome.raisedNameError :=
  snippet_edit_spec ⟨[("a", "x")], []⟩ "a" "z" (by decide)

/-- C7: the claim asserts a success embed for every blocked id; the code
always pops the id and persists when it is blocked, but when the stored
reason starts with `System Message: ` it raises `KeyError` in the
footer's `str.format` before `ctx.send`, so no success embed is sent on
that path; a plain reason does get the success embed, and an un-blocked
id gets the error embed with the map unchanged. -/
theorem unblock_spec (st : BlockState) (uid : String) :
    (dictContains st.blocked uid = true →
      (unblock st uid).1.blocked = dictPop st.blocked uid ∧
      dictContains (unblock st uid).1.blocked uid = false ∧
      (unblock st uid).2.2 = true) ∧
    (dictContains st.blocked uid = true →
      startswith ((dictGet st.blocked uid).getD "") "System Message: "
        = true →
      (unblock st uid).2.1 = UnblockOutcome.raisedKeyError) ∧
    (dictContains st.blocked uid = true →
      startswith ((dictGet st.blocked uid).getD "") "System Message: "
        = false →
      (unblock st uid).2.1 = UnblockOutcome.success) ∧
    (dictContains st.blocked uid = false →
      unblock st uid = (st, UnblockOutcome.notBlockedError, false)) := by
  refine ⟨?_, ?_, ?_, ?_⟩
  · intro h
    unfold unblock
    simp only [h, if_true]
    split <;>
      exact ⟨by trivial, dictContains_dictPop_self st.blocked uid,
        by trivial⟩
  · intro h hs
    unfold unblock
    simp only [h, if_true, hs]
  · intro h hs
    unfold unblock
    simp only [h, if_true, hs, Bool.false_eq_true, if_false]
  · intro h
    unfold unblock
    simp [h]

/-- C7 witness: an internally-blocked id is popped and persisted but ends
in the `KeyError`, a plainly-blocked id gets the success embed, and an
un-blocked id the error embed. -/
theorem unblock_spec_witness :
    (unblock ⟨[("1", "System Message: too new"), ("2", "by a#1.")], []⟩
        "1").1.blocked = [("2", "by a#1.")] ∧
    (unblock ⟨[("1", "System Message: too new"), ("2", "by a#1.")], []⟩
        "1").2.2 = true ∧
    (unblock ⟨[("1", "System Message: too new"), ("2", "by a#1.")], []⟩
        "1").2.1 = UnblockOutcome.raisedKeyError ∧
    (unblock ⟨[("1", "System Message: too new"), ("2", "by a#1.")], []⟩
        "2").2.1 = UnblockOutcome.success ∧
    unblock ⟨[("1", "System Message: too new"), ("2", "by a#1.")], []⟩
        "3" =
      (⟨[("1", "System Message: too new"), ("2", "by a#1.")], []⟩,
        UnblockOutcome.notBlockedError, false) :=
  ⟨((unblock_spec ⟨[("1", "System Message: too new"), ("2", "by a#1.")],
      []⟩ "1").1 (by decide)).1,
   ((unblock_spec ⟨[("1", "System Message: too new"), ("2", "by a#1.")],
      []⟩ "1").1 (by decide)).2.2,
   (unblock_spec ⟨[("1", "System Message: too new"), ("2", "by a#1.")],
      []⟩ "1").2.1 (by decide) (by decide),
   (unblock_spec ⟨[("1", "System Message: too new"), ("2", "by a#1.")],
      []⟩ "2").2.2.1 (by decide) (by decide),
   (unblock_spec ⟨[("1", "System Message: too new"), ("2", "by a#1.")],
      []⟩ "3").2.2.2 (by decide)⟩

/-- C3: `dm_disabled` only takes the values 0, 1, 2 across the three
commands; `enable` always sets it to 0, `disable` sets it to 1 only when
it was below 1 (2 is not lowered), `disable all` always sets it to 2;
each command sends a success embed. -/
theorem dm_disabled_spec (d : Int) :
    (enable d).1 = 0 ∧ (enable d).2.1 = EmbedKind.success ∧
    (d < 1 → (disable d).1 = 1) ∧
    (¬d < 1 → (disable d).1 = d) ∧
    (disable d).2.1 = EmbedKind.success ∧
    (disable_all d).1 = 2 ∧ (disable_all d).2.1 = EmbedKind.success ∧
    ((d = 0 ∨ d = 1 ∨ d = 2) →
      ((enable d).1 = 0 ∨ (enable d).1 = 1 ∨ (enable d).1 = 2) ∧
      ((disable d).1 = 0 ∨ (disable d).1 = 1 ∨ (disable d).1 = 2) ∧
      ((disable_all d).1 = 0 ∨ (disable_all d).1 = 1 ∨
        (disable_all d).1 = 2)) := by
  refine ⟨?_, ?_, ?_, ?_, ?_, ?_, ?_, ?_⟩
  · unfold enable; split <;> simp_all
  · unfold enable; split <;> rfl
  · intro h; unfold disable; simp [h]
  · intro h; unfold disable; simp [h]
  · unfold disable; split <;> rfl
  · unfold disable_all; split <;> simp_all
  · unfold disable_all; split <;> rfl
  · intro h
    refine ⟨?_, ?_, ?_⟩
    · unfold enable; split <;> simp_all
    · unfold disable; split <;> rcases h with h | h | h <;> simp_all
    · unfold disable_all; split <;> simp_all

/-- C3 witness: the transitions at the concrete previous value 2. -/
theorem dm_disabled_spec_witness :
    (enable 2).1 = 0 ∧ (disable 2).1 = 2 ∧ (disable_all 2).1 = 2 ∧
    ((disable 2).1 = 0 ∨ (disable 2).1 = 1 ∨ (disable 2).1 = 2) :=
  ⟨(dm_disabled_spec 2).1,
   (dm_disabled_spec 2).2.2.2.1 (by decide),
   (dm_disabled_spec 2).2.2.2.2.2.1,
   ((dm_disabled_spec 2).2.2.2.2.2.2.2 (by decide)).2.1⟩

/-- C8: `parse_user_or_role` returns the author's mention for `None`,
the object's mention when it has one, `@here`/`@everyone` for the four
strings `here`, `everyone`, `@here`, `@everyone`, and `None` for every
other string. -/
theorem parse_user_or_role_spec (am m s : String) :
    parse_user_or_role am UserOrRole.none = some am ∧
    parse_user_or_role am (UserOrRole.mentionable m) = some m ∧
    parse_user_or_role am (UserOrRole.str "here") = some "@here" ∧
    parse_user_or_role am (UserOrRole.str "everyone") = some "@everyone" ∧
    parse_user_or_role am (UserOrRole.str "@here") = some "@here" ∧
    parse_user_or_role am (UserOrRole.str "@everyone") = some "@everyone" ∧
    (s ≠ "here" → s ≠ "everyone" → s ≠ "@here" → s ≠ "@everyone" →
      parse_user_or_role am (UserOrRole.str s) = Option.none) := by
  refine ⟨rfl, rfl, rfl, rfl, rfl, rfl, ?_⟩
  intro n1 n2 n3 n4
  simp [parse_user_or_role, n1, n2, n3, n4]

/-- C8 witness: a string outside the four special ones parses to
`None`. -/
theorem parse_user_or_role_spec_witness :
    parse_user_or_role "@a" (UserOrRole.str "bob") = Option.none :=
  (parse_user_or_role_spec "@a" "m" "bob").2.2.2.2.2.2 (by decide)
    (by decide) (by decide) (by decide)

theorem contains_false_iff (l : List String) (x : String) :
    l.contains x = false ↔ x ∉ l := by
  rw [← Bool.not_eq_true]
  simp

theorem blDisjoint_dictSet (st : BlockState) (uid r : String)
    (hd : blDisjoint st) (h : st.whitelist.contains uid = false) :
    blDisjoint { st with blocked := dictSet st.blocked uid r } := by
  unfold blDisjoint
  intro p hp
  rcases mem_dictSet hp with h1 | h1
  · exact hd p h1
  · rw [h1]
    exact h

/-- C2: no user id is both blocked and whitelisted: `block` refuses with
an error embed and changes nothing when the target is whitelisted;
`blocked_whitelist` removes the user from the blocked map when it adds
them to the whitelist; and `block`, `unblock` and `blocked_whitelist`
each preserve disjointness of the two collections. -/
theorem block_whitelist_disjoint_spec (st : BlockState)
    (uid reasonBase : String) (after : Option AfterArg) :
    (st.whitelist.contains uid = true →
      block st uid reasonBase after =
        Except.ok (st, EmbedKind.error, false)) ∧
    (st.whitelist.contains uid = false →
      uid ∈ (blocked_whitelist st uid).1.whitelist ∧
      dictContains (blocked_whitelist st uid).1.blocked uid = false) ∧
    (blDisjoint st →
      blDisjoint (blocked_whitelist st uid).1 ∧
      (∀ st' e u, block st uid reasonBase after = Except.ok (st', e, u) →
        blDisjoint st') ∧
      blDisjoint (unblock st uid).1) := by
  refine ⟨?_, ?_, ?_⟩
  · intro h
    have hm : uid ∈ st.whitelist := by simpa using h
    unfold block
    simp [hm]
  · intro h
    have hm : uid ∉ st.whitelist := by simpa using h
    have hw : (blocked_whitelist st uid).1.whitelist =
        st.whitelist ++ [uid] := by
      unfold blocked_whitelist
      simp [hm]
    have hb : (blocked_whitelist st uid).1.blocked =
        (if dictContains st.blocked uid then dictPop st.blocked uid
          else st.blocked) := by
      unfold blocked_whitelist
      simp [hm]
    refine ⟨?_, ?_⟩
    · rw [hw]
      simp
    · rw [hb]
      by_cases hc : dictContains st.blocked uid = true
      · simp only [hc, if_true]
        exact dictContains_dictPop_self st.blocked uid
      · have hc' : dictContains st.blocked uid = false := by simpa using hc
        simp [hc']
  · intro hd
    refine ⟨?_, ?_, ?_⟩
    · by_cases h : st.whitelist.contains uid = true
      · unfold blocked_whitelist blDisjoint
        simp only [h, if_true]
        intro p hp
        exact contains_erase_false st.whitelist uid p.1 (hd p hp)
      · have h' : st.whitelist.contains uid = false := by simpa using h
        by_cases hc : dictContains st.blocked uid = true
        · unfold blocked_whitelist blDisjoint
          simp only [h', hc, Bool.false_eq_true, if_false, if_true]
          intro p hp
          have hmem : p ∈ st.blocked := mem_dictPop hp
          have hne : p.1 ≠ uid := mem_dictPop_ne hp
          have h1 : p.1 ∉ st.whitelist :=
            (contains_false_iff _ _).mp (hd p hmem)
          rw [contains_false_iff]
          simp [h1, hne]
        · have hc' : dictContains st.blocked uid = false := by simpa using hc
          unfold blocked_whitelist blDisjoint
          simp only [h', hc', Bool.false_eq_true, if_false]
          intro p hp
          have hne : p.1 ≠ uid := ne_key_of_not_contains hc' hp
          have h1 : p.1 ∉ st.whitelist :=
            (contains_false_iff _ _).mp (hd p hp)
          rw [contains_false_iff]
          simp [h1, hne]
    · intro st' e u heq
      unfold block at heq
      by_cases h : st.whitelist.contains uid = true
      · simp only [h, if_true, Except.ok.injEq, Prod.mk.injEq] at heq
        rw [← heq.1]
        exact hd
      · have h' : st.whitelist.contains uid = false := by simpa using h
        cases after with
        | none =>
          simp only [h', Bool.false_eq_true, if_false, Except.ok.injEq,
            Prod.mk.injEq] at heq
          rw [← heq.1]
          exact blDisjoint_dictSet st uid _ hd h'
        | some a =>
          by_cases hpc : reasonBase.contains '%' = true
          · have hm : uid ∉ st.whitelist := by simpa using h'
            simp [hm, hpc] at heq
          · have hpc' : reasonBase.contains '%' = false := by simpa using hpc
            simp only [h', hpc', Bool.false_eq_true, if_false,
              Except.ok.injEq, Prod.mk.injEq] at heq
            rw [← heq.1]
            exact blDisjoint_dictSet st uid _ hd h'
    · unfold unblock blDisjoint
      by_cases hc : dictContains st.blocked uid = true
      · simp only [hc, if_true]
        split <;> (intro p hp; exact hd p (mem_dictPop hp))
      · have hc' : dictContains st.blocked uid = false := by simpa using hc
        simp only [hc', Bool.false_eq_true, if_false]
        exact hd

/-- C2 witness on a concrete disjoint state: blocking a whitelisted user
is refused, whitelisting removes the user from the blocked map, and the
operations preserve disjointness. -/
theorem block_whitelist_disjoint_spec_witness :
    block ⟨[("1", "r")], ["2"]⟩ "2" "by a#1" Option.none =
      Except.ok (⟨[("1", "r")], ["2"]⟩, EmbedKind.error, false) ∧
    "1" ∈ (blocked_whitelist ⟨[("1", "r")], ["2"]⟩ "1").1.whitelist ∧
    dictContains (blocked_whitelist ⟨[("1", "r")], ["2"]⟩ "1").1.blocked "1"
      = false ∧
    blDisjoint (blocked_whitelist ⟨[("1", "r")], ["2"]⟩ "1").1 ∧
    blDisjoint (unblock ⟨[("1", "r")], ["2"]⟩ "1").1 :=
  ⟨(block_whitelist_disjoint_spec ⟨[("1", "r")], ["2"]⟩ "2" "by a#1"
      Option.none).1 (by decide),
   ((block_whitelist_disjoint_spec ⟨[("1", "r")], ["2"]⟩ "1" "by a#1"
      Option.none).2.1 (by decide)).1,
   ((block_whitelist_disjoint_spec ⟨[("1", "r")], ["2"]⟩ "1" "by a#1"
      Option.none).2.1 (by decide)).2,
   ((block_whitelist_disjoint_spec ⟨[("1", "r")], ["2"]⟩ "1" "by a#1"
      Option.none).2.2 (by decide)).1,
   ((block_whitelist_disjoint_spec ⟨[("1", "r")], ["2"]⟩ "1" "by a#1"
      Option.none).2.2 (by decide)).2.2⟩

/-- C4: the claim asserts an error embed for a bot target, an error
embed naming the channel for an existing recipient, and one new thread
otherwise; the code never sends any of these embeds — each branch raises
`UnboundLocalError` on `_`, shadowed by line 954's tuple assignment —
though its state effects are as claimed: nothing is created for a bot or
an existing recipient, and exactly one thread with the user as recipient
and the author as creator is created before the fresh-recipient branch
crashes. -/
theorem contact_spec (ts : List MThread) (user : ContactUser)
    (authorId : Nat) (category : Option Nat) (newChannel : String) :
    (user.isBot = true →
      contact ts user authorId category newChannel =
        (ts, ContactResult.raisedBot)) ∧
    (user.isBot = false → ∀ t, threadsFind ts user.id = some t →
      contact ts user authorId category newChannel =
        (ts, ContactResult.raisedExists)) ∧
    (user.isBot = false → threadsFind ts user.id = none →
      contact ts user authorId category newChannel =
        (ts ++ [⟨user.id, authorId, newChannel, category⟩],
          ContactResult.raisedAfterCreate)) := by
  refine ⟨?_, ?_, ?_⟩
  · intro h
    unfold contact
    simp [h]
  · intro h t ht
    unfold contact
    simp [h, ht]
  · intro h ht
    unfold contact threadsCreate
    simp [h, ht]

/-- C4 witness on a concrete thread list: a bot target and an existing
recipient crash with nothing created, a fresh recipient gets one thread
created before the crash. -/
theorem contact_spec_witness :
    contact [⟨5, 9, "#c", Option.none⟩] ⟨7, true, "@w"⟩ 9 Option.none "#d" =
      ([⟨5, 9, "#c", Option.none⟩], ContactResult.raisedBot) ∧
    contact [⟨5, 9, "#c", Option.none⟩] ⟨5, false, "@u"⟩ 9 Option.none "#d" =
      ([⟨5, 9, "#c", Option.none⟩], ContactResult.raisedExists) ∧
    contact [⟨5, 9, "#c", Option.none⟩] ⟨6, false, "@v"⟩ 9 Option.none "#d" =
      ([⟨5, 9, "#c", Option.none⟩, ⟨6, 9, "#d", Option.none⟩],
        ContactResult.raisedAfterCreate) :=
  ⟨(contact_spec [⟨5, 9, "#c", Option.none⟩] ⟨7, true, "@w"⟩ 9 Option.none
      "#d").1 (by decide),
   (contact_spec [⟨5, 9, "#c", Option.none⟩] ⟨5, false, "@u"⟩ 9 Option.none
      "#d").2.1 (by decide) ⟨5, 9, "#c", Option.none⟩ (by decide),
   (contact_spec [⟨5, 9, "#c", Option.none⟩] ⟨6, false, "@v"⟩ 9 Option.none
      "#d").2.2 (by decide) (by decide)⟩

theorem dictGet_init_ne {α : Type} (m : Dict α) (key k : String) (v0 : α)
    (h : k ≠ key) :
    dictGet (if dictContains m key then m else dictSet m key v0) k =
      dictGet m k := by
  split
  · rfl
  · exact dictGet_dictSet_ne m key k v0 h

/-- C5: `notify` and `unnotify` mutate at most the entry stored under
the current thread's id in `notification_squad`, and `subscribe` and
`unsubscribe` at most the entry under the current thread's id in
`subscriptions`; the other map, the entries under every other thread id,
and every other configuration field are unchanged. -/
theorem notify_subscribe_frame (cfg : NotifyConfig) (tid : Nat)
    (u : UserOrRole) (am : String) :
    (∀ r, notify cfg tid u am = Except.ok r →
      r.1.subscriptions = cfg.subscriptions ∧
      r.1.otherFields = cfg.otherFields ∧
      ∀ k, k ≠ toString tid →
        dictGet r.1.notification_squad k =
          dictGet cfg.notification_squad k) ∧
    ((unnotify cfg tid u am).1.subscriptions = cfg.subscriptions ∧
      (unnotify cfg tid u am).1.otherFields = cfg.otherFields ∧
      ∀ k, k ≠ toString tid →
        dictGet (unnotify cfg tid u am).1.notification_squad k =
          dictGet cfg.notification_squad k) ∧
    (∀ r, subscribe cfg tid u am = Except.ok r →
      r.1.notification_squad = cfg.notification_squad ∧
      r.1.otherFields = cfg.otherFields ∧
      ∀ k, k ≠ toString tid →
        dictGet r.1.subscriptions k = dictGet cfg.subscriptions k) ∧
    ((unsubscribe cfg tid u am).1.notification_squad =
        cfg.notification_squad ∧
      (unsubscribe cfg tid u am).1.otherFields = cfg.otherFields ∧
      ∀ k, k ≠ toString tid →
        dictGet (unsubscribe cfg tid u am).1.subscriptions k =
          dictGet cfg.subscriptions k) := by
  refine ⟨?_, ?_, ?_, ?_⟩
  · intro r hr
    cases hp : parse_user_or_role am u with
    | none => simp [notify, hp] at hr
    | some mention =>
      simp only [notify, hp] at hr
      split at hr <;> split at hr
      all_goals
        have hre := Except.ok.inj hr
        subst hre
        refine ⟨rfl, rfl, ?_⟩
        intro k hk
        try rw [dictGet_dictSet_ne _ _ _ _ hk]
        try rw [dictGet_dictSet_ne _ _ _ _ hk]
        try rfl
  · simp only [unnotify]
    split <;> split
    all_goals
      refine ⟨rfl, rfl, ?_⟩
      intro k hk
      try rw [dictGet_dictSet_ne _ _ _ _ hk]
      try rw [dictGet_dictSet_ne _ _ _ _ hk]
      try rfl
  · intro r hr
    cases hp : parse_user_or_role am u with
    | none => simp [subscribe, hp] at hr
    | some mention =>
      simp only [subscribe, hp] at hr
      split at hr <;> split at hr
      all_goals
        have hre := Except.ok.inj hr
        subst hre
        refine ⟨rfl, rfl, ?_⟩
        intro k hk
        try rw [dictGet_dictSet_ne _ _ _ _ hk]
        try rw [dictGet_dictSet_ne _ _ _ _ hk]
        try rfl
  · simp only [unsubscribe]
    split <;> split
    all_goals
      refine ⟨rfl, rfl, ?_⟩
      intro k hk
      try rw [dictGet_dictSet_ne _ _ _ _ hk]
      try rw [dictGet_dictSet_ne _ _ _ _ hk]
      try rfl

/-- C5 witness: on a concrete config with thread id 3, the entry under
thread id 7 is untouched by `notify`, `unnotify` and `subscribe`. -/
theorem notify_subscribe_frame_witness :
    dictGet ([("7", ["@x"]), ("3", ["@me"])] : Dict (List String)) "7" =
      dictGet ([("7", ["@x"])] : Dict (List String)) "7" ∧
    dictGet (unnotify ⟨[("7", ["@x"])], [("7", ["@y"])], [("other", "v")]⟩
        3 UserOrRole.none "@me").1.notification_squad "7" =
      dictGet ([("7", ["@x"])] : Dict (List String)) "7" ∧
    dictGet ([("7", ["@y"]), ("3", ["@me"])] : Dict (List String)) "7" =
      dictGet ([("7", ["@y"])] : Dict (List String)) "7" :=
  ⟨((notify_subscribe_frame ⟨[("7", ["@x"])], [("7", ["@y"])],
        [("other", "v")]⟩ 3 UserOrRole.none "@me").1
      (⟨[("7", ["@x"]), ("3", ["@me"])], [("7", ["@y"])], [("other", "v")]⟩,
        EmbedKind.success, true) rfl).2.2 "7" (by decide),
   (notify_subscribe_frame ⟨[("7", ["@x"])], [("7", ["@y"])],
        [("other", "v")]⟩ 3 UserOrRole.none "@me").2.1.2.2 "7" (by decide),
   ((notify_subscribe_frame ⟨[("7", ["@x"])], [("7", ["@y"])],
        [("other", "v")]⟩ 3 UserOrRole.none "@me").2.2.1
      (⟨[("7", ["@x"])], [("7", ["@y"]), ("3", ["@me"])], [("other", "v")]⟩,
        EmbedKind.success, true) rfl).2.2 "7" (by decide)⟩

/-- C10 counterexample: with a single blocked user whose rendered line is
2049 characters long, the `blocked` listing builds an embed description
longer than 2048 characters (the loop starts a fresh embed with the whole
line and never truncates it). -/
theorem blocked_descriptions_overflow :
    2048 <
      ((blockedDescriptions
        [("u", String.mk (List.replicate 2044 'a'))]).getD 1 "").length := by
  have hlen : (String.mk (List.replicate 2044 'a')).length = 2044 := by
    show (List.replicate 2044 'a').length = 2044
    rw [List.length_replicate]
  have hne : String.mk (List.replicate 2044 'a') ≠ "" := by
    intro he
    rw [he] at hlen
    exact absurd hlen (by decide)
  have hline :
      (blockedLine "u" (String.mk (List.replicate 2044 'a'))).length =
        2049 := by
    unfold blockedLine
    rw [if_neg hne, String.length_append, String.length_append,
      String.length_append, hlen]
    decide
  have hgt : (([], "") : List String × String).2.length +
      (blockedLine "u" (String.mk (List.replicate 2044 'a'))).length >
        2048 := by
    rw [hline]
    decide
  have hstep : blockedStep ([], "")
      (blockedLine "u" (String.mk (List.replicate 2044 'a'))) =
      ([""], blockedLine "u" (String.mk (List.replicate 2044 'a'))) := by
    unfold blockedStep
    rw [if_pos hgt]
    rfl
  have hdesc : blockedDescriptions
      [("u", String.mk (List.replicate 2044 'a'))] =
      ["", blockedLine "u" (String.mk (List.replicate 2044 'a'))] := by
    unfold blockedDescriptions
    rw [if_neg (by decide :
      ¬(([("u", String.mk (List.replicate 2044 'a'))] :
        List (String × String)).isEmpty = true))]
    rw [show ([("u", String.mk (List.replicate 2044 'a'))].map
        (fun p => blockedLine p.1 p.2)) =
        [blockedLine "u" (String.mk (List.replicate 2044 'a'))] from rfl]
    show (List.foldl blockedStep ([], "")
        [blockedLine "u" (String.mk (List.replicate 2044 'a'))]).1 ++
      [(List.foldl blockedStep ([], "")
        [blockedLine "u" (String.mk (List.replicate 2044 'a'))]).2] =
      ["", blockedLine "u" (String.mk (List.replicate 2044 'a'))]
    rw [List.foldl_cons, List.foldl_nil, hstep]
    rfl
  rw [hdesc]
  show 2048 < (blockedLine "u" (String.mk (List.replicate 2044 'a'))).length
  rw [hline]
  decide

theorem blocked_fold_bounded (lines : List String) :
    ∀ acc cur, (∀ l ∈ lines, l.length ≤ 2048) →
      (∀ d ∈ acc, d.length ≤ 2048) → cur.length ≤ 2048 →
      (∀ d ∈ (lines.foldl blockedStep (acc, cur)).1, d.length ≤ 2048) ∧
      (lines.foldl blockedStep (acc, cur)).2.length ≤ 2048 := by
  induction lines with
  | nil =>
    intro acc cur _ hacc hcur
    exact ⟨hacc, hcur⟩
  | cons l ls ih =>
    intro acc cur hl hacc hcur
    have hll : l.length ≤ 2048 := hl l (by simp)
    have hls : ∀ x ∈ ls, x.length ≤ 2048 := fun x hx => hl x (by simp [hx])
    simp only [List.foldl_cons]
    by_cases hgt : cur.length + l.length > 2048
    · have hstep : blockedStep (acc, cur) l = (acc ++ [cur], l) := by
        unfold blockedStep
        exact if_pos hgt
      rw [hstep]
      apply ih (acc ++ [cur]) l hls ?_ hll
      intro d hd
      rcases List.mem_append.mp hd with h1 | h1
      · exact hacc d h1
      · rw [List.mem_singleton.mp h1]
        exact hcur
    · have hstep : blockedStep (acc, cur) l = (acc, cur ++ l) := by
        unfold blockedStep
        exact if_neg hgt
      rw [hstep]
      apply ih acc (cur ++ l) hls hacc
      rw [String.length_append]
      omega

/-- C10 (amended): when every rendered line of the blocked listing is at
most 2048 characters long, every embed description built by the
`blocked` command has length at most 2048. -/
theorem blockedDescriptions_bounded (users : List (String × String))
    (h : ∀ p ∈ users, (blockedLine p.1 p.2).length ≤ 2048) :
    ∀ d ∈ blockedDescriptions users, d.length ≤ 2048 := by
  unfold blockedDescriptions
  by_cases he : users.isEmpty = true
  · simp only [he, if_true]
    intro d hd
    rw [List.mem_singleton.mp hd]
    decide
  · have he' : users.isEmpty = false := by simpa using he
    simp only [he', Bool.false_eq_true, if_false]
    intro d hd
    have hl : ∀ l ∈ users.map (fun p => blockedLine p.1 p.2),
        l.length ≤ 2048 := by
      intro l hlm
      rcases List.mem_map.mp hlm with ⟨p, hp, hplp⟩
      rw [← hplp]
      exact h p hp
    have hmain := blocked_fold_bounded
      (users.map (fun p => blockedLine p.1 p.2)) [] "" hl
      (by intro d hd0; simp at hd0) (by simp)
    rcases List.mem_append.mp hd with h1 | h1
    · exact hmain.1 d h1
    · rw [List.mem_singleton.mp h1]
      exact hmain.2

/-- C10 witness for the amended bound, at a one-user map with a short
line. -/
theorem blockedDescriptions_bounded_witness :
    ((blockedDescriptions [("u", "r")]).getD 0 "").length ≤ 2048 :=
  blockedDescriptions_bounded [("u", "r")] (by decide)
    ((blockedDescriptions [("u", "r")]).getD 0 "") (by decide)
